/-
Verification of the odnoklassniki-api manager/model synchronization core
(`odnoklassniki_api/models.py`) against its natural-language specification.

The Python code is shallowly embedded: raw API response values become the
inductive type `Raw`, coerced field values become `Value`, model instances
become key/value attribute maps, and the persistence layer becomes an
explicit `Store` threaded through the operations.
-/
import Mathlib

set_option autoImplicit false

namespace OdkApi

/-! ## Raw (untyped) remote response values

A raw value is what the transport hands to `parse` / `parse_response_list`:
`None`, a bool, an int, a string, a list or a dict.  Nested lists and dicts
are represented by the mutually inductive `RawList` / `RawDict` so that
decidable equality can be derived. -/

mutual
inductive Raw where
  | null
  | b (x : Bool)
  | i (n : Int)
  | s (t : String)
  | arr (xs : RawList)
  | obj (kvs : RawDict)
  deriving DecidableEq, Repr
inductive RawList where
  | nil
  | cons (hd : Raw) (tl : RawList)
  deriving DecidableEq, Repr
inductive RawDict where
  | nil
  | cons (k : String) (v : Raw) (tl : RawDict)
  deriving DecidableEq, Repr
end

def RawList.isEmpty : RawList → Bool
  | .nil => true
  | .cons _ _ => false

def RawDict.isEmpty : RawDict → Bool
  | .nil => true
  | .cons _ _ _ => false

/-- The entries of a raw dict as an ordinary list of pairs (`dict.items()`). -/
def RawDict.entries : RawDict → List (String × Raw)
  | .nil => []
  | .cons k v tl => (k, v) :: tl.entries

/-- Python truthiness of a raw value (`if value:`). -/
def truthyRaw : Raw → Bool
  | .null => false
  | .b x => x
  | .i n => n != 0
  | .s t => t != ""
  | .arr xs => !xs.isEmpty
  | .obj kvs => !kvs.isEmpty

/-- `isinstance(value, int)` — in Python, `bool` is a subclass of `int`. -/
def isPyInt : Raw → Bool
  | .i _ => true
  | .b _ => true
  | _ => false

/-! ## Python scalar conversions -/

def isPySpace (c : Char) : Bool :=
  c = ' ' ∨ c = '\t' ∨ c = '\n' ∨ c = '\x0d' ∨ c = '\x0b' ∨ c = '\x0c'

/-- Strip leading and trailing whitespace, as `int(...)` does. -/
def stripChars (cs : List Char) : List Char :=
  ((cs.dropWhile isPySpace).reverse.dropWhile isPySpace).reverse

/-- Python `int(s)` on a string: optional surrounding whitespace, an optional
sign, then one or more decimal digits; anything else raises `ValueError`
(modelled as `none`). -/
def pyIntOfString (t : String) : Option Int :=
  match stripChars t.toList with
  | [] => none
  | c :: rest =>
    let signed : Bool × List Char :=
      if c = '-' then (true, rest)
      else if c = '+' then (false, rest)
      else (false, c :: rest)
    if signed.2 ≠ [] ∧ signed.2.all Char.isDigit then
      let n : Nat := signed.2.foldl (fun acc d => acc * 10 + (d.toNat - 48)) 0
      some (if signed.1 then -(n : Int) else (n : Int))
    else none

/-- ASCII lower-casing of one character (API keys are ASCII). -/
def charLower (c : Char) : Char :=
  if 65 ≤ c.toNat ∧ c.toNat ≤ 90 then Char.ofNat (c.toNat + 32) else c

/-- Python `key.lower()` (API keys are ASCII). -/
def strLower (s : String) : String :=
  String.mk (s.toList.map charLower)

/-- Python `int(value)` on an arbitrary value: ints pass through, bools map
to 0/1, strings are parsed, everything else raises (modelled as `none`). -/
def pyIntOfRaw : Raw → Option Int
  | .i n => some n
  | .b x => some (if x then 1 else 0)
  | .s t => pyIntOfString t
  | _ => none

mutual
/-- Python `repr` of a raw value, used by `unicode` on containers. -/
def reprRaw : Raw → String
  | .null => "None"
  | .b true => "True"
  | .b false => "False"
  | .i n => toString n
  | .s t => "u" ++ "\x27" ++ t ++ "\x27"
  | .arr xs => "[" ++ reprRawList xs ++ "]"
  | .obj kvs => "\x7b" ++ reprRawDict kvs ++ "\x7d"
def reprRawList : RawList → String
  | .nil => ""
  | .cons x .nil => reprRaw x
  | .cons x (.cons y tl) => reprRaw x ++ ", " ++ reprRawList (.cons y tl)
def reprRawDict : RawDict → String
  | .nil => ""
  | .cons k v .nil => "u" ++ "\x27" ++ k ++ "\x27" ++ ": " ++ reprRaw v
  | .cons k v (.cons k2 v2 tl) =>
      "u" ++ "\x27" ++ k ++ "\x27" ++ ": " ++ reprRaw v ++ ", " ++ reprRawDict (.cons k2 v2 tl)
end

/-- Python `unicode(value)`: strings stay themselves, other values take
their text representation.  Never raises for the values modelled here. -/
def pyStr : Raw → String
  | .s t => t
  | v => reprRaw v

/-- Python slice `t[a:b]` on a string. -/
def pySlice (t : String) (a bnd : Nat) : String :=
  String.mk ((t.toList.drop a).take (bnd - a))

/-! ## Coerced field values

A `Value` is what `OdnoklassnikiModel.parse` may assign to a model
attribute: either a raw value carried over unchanged, or the result of one
of the coercions (a datetime localized to Europe/Moscow, a UTC datetime
obtained from an epoch-seconds count, or a resolved related record). -/

/-- A naive `datetime(year, month, day, hour, minute, second)` as built by
the positional text-timestamp parse. -/
structure PyDatetime where
  year : Int
  month : Int
  day : Int
  hour : Int
  minute : Int
  second : Int
  deriving DecidableEq, Repr

inductive Value where
  | vnull
  | vbool (x : Bool)
  | vint (n : Int)
  | vstr (t : String)
  | varr (xs : RawList)
  | vobj (kvs : RawDict)
  /-- a datetime carrying the Europe/Moscow timezone (`pytz` `localize`) -/
  | vdtMoscow (dt : PyDatetime)
  /-- `datetime.utcfromtimestamp(n).replace(tzinfo=utc)` for epoch `n` -/
  | vdtUtcEpoch (n : Int)
  /-- a persisted related record resolved by `rel_class.objects.get(pk=...)` -/
  | vrelated (pk : Raw)
  deriving DecidableEq, Repr

/-- Inject an untouched raw value into `Value`. -/
def rawToValue : Raw → Value
  | .null => .vnull
  | .b x => .vbool x
  | .i n => .vint n
  | .s t => .vstr t
  | .arr xs => .varr xs
  | .obj kvs => .vobj kvs

/-- Python truthiness of a coerced value (`if old_value:` in `_substitute`).
Datetime and model-instance objects are always truthy in Python. -/
def truthy : Value → Bool
  | .vnull => false
  | .vbool x => x
  | .vint n => n != 0
  | .vstr t => t != ""
  | .varr xs => !xs.isEmpty
  | .vobj kvs => !kvs.isEmpty
  | .vdtMoscow _ => true
  | .vdtUtcEpoch _ => true
  | .vrelated _ => true

/-- `new_value is None or new_value == ''` in `_substitute`.  In Python,
`0 == ''` and `False == ''` are both `False`, so only `None` and the empty
string satisfy this. -/
def isNoneOrEmptyStr : Value → Bool
  | .vnull => true
  | .vstr t => t == ""
  | _ => false

/-! ## DateTime field coercion (`OdnoklassnikiModel.parse`, datetime branch) -/

def isLeapYear (y : Int) : Bool :=
  (y % 4 == 0 && y % 100 != 0) || y % 400 == 0

def daysInMonth (y mo : Int) : Int :=
  if mo = 2 then (if isLeapYear y then 29 else 28)
  else if mo = 4 ∨ mo = 6 ∨ mo = 9 ∨ mo = 11 then 30
  else 31

/-- The `datetime(...)` constructor: validates field ranges (`MINYEAR = 1`,
`MAXYEAR = 9999`), raising `ValueError` (modelled as `none`) otherwise. -/
def mkPyDatetime (y mo d hh mi ss : Int) : Option PyDatetime :=
  if 1 ≤ y ∧ y ≤ 9999 ∧ 1 ≤ mo ∧ mo ≤ 12 ∧ 1 ≤ d ∧ d ≤ daysInMonth y mo ∧
     0 ≤ hh ∧ hh ≤ 23 ∧ 0 ≤ mi ∧ mi ≤ 59 ∧ 0 ≤ ss ∧ ss ≤ 59
  then some (PyDatetime.mk y mo d hh mi ss) else none

/-- The positional text-timestamp parse of the datetime branch: for lengths
19 / 16 / 10 the value is sliced into `int(...)` calls feeding the
`datetime` constructor; any other length leaves the value a string, so the
subsequent `localize` raises (modelled as `none`). -/
def positionalParse (t : String) : Option PyDatetime :=
  if t.length = 19 then
    match pyIntOfString (pySlice t 0 4), pyIntOfString (pySlice t 5 7),
          pyIntOfString (pySlice t 8 10), pyIntOfString (pySlice t 11 13),
          pyIntOfString (pySlice t 14 16), pyIntOfString (pySlice t 17 19) with
    | some y, some mo, some d, some hh, some mi, some ss => mkPyDatetime y mo d hh mi ss
    | _, _, _, _, _, _ => none
  else if t.length = 16 then
    match pyIntOfString (pySlice t 0 4), pyIntOfString (pySlice t 5 7),
          pyIntOfString (pySlice t 8 10), pyIntOfString (pySlice t 11 13),
          pyIntOfString (pySlice t 14 16) with
    | some y, some mo, some d, some hh, some mi => mkPyDatetime y mo d hh mi 0
    | _, _, _, _, _ => none
  else if t.length = 10 then
    match pyIntOfString (pySlice t 0 4), pyIntOfString (pySlice t 5 7),
          pyIntOfString (pySlice t 8 10) with
    | some y, some mo, some d => mkPyDatetime y mo d 0 0 0
    | _, _, _ => none
  else none

/-- The string arm of the datetime branch: positional parse, then
`timezone('Europe/Moscow').localize(value)`, then `assert value.year != 1970`;
any failure inside the `try` yields `None`. -/
def textTimestampCoerce (t : String) : Value :=
  match positionalParse t with
  | some dt => if dt.year = 1970 then .vnull else .vdtMoscow dt
  | none => .vnull

/-- First epoch second whose UTC datetime exceeds year 9999; from here up
`datetime.utcfromtimestamp` raises (modelled as the failure branch). -/
def maxTimestamp : Int := 253402300800

/-- The epoch arm of the datetime branch: `int(value)`, `assert value > 0`,
`datetime.utcfromtimestamp(value).replace(tzinfo=utc)`; any failure inside
the `try` yields `None`. -/
def epochCoerce (v : Raw) : Value :=
  match pyIntOfRaw v with
  | some n => if 0 < n ∧ n < maxTimestamp then .vdtUtcEpoch n else .vnull
  | none => .vnull

/-- The full datetime-field coercion: strings of length at least 10 take the
text-timestamp arm, everything else takes the epoch arm. -/
def coerceDateTime : Raw → Value
  | .s t => if 10 ≤ t.length then textTimestampCoerce t else epochCoerce (.s t)
  | v => epochCoerce v

/-! ## Field schema and `OdnoklassnikiModel.parse` -/

/-- The Django field classes that `parse` dispatches on.  `DateTimeField`
and `DateField` behave identically in `parse` and share one case; the
`FloatField` case is omitted because no raw value modelled here is a
float (its coercion could never fire).  `commaSeparatedField` stands for
`fields.CommaSeparatedCharField` / `models.CommaSeparatedIntegerField`,
treated as distinct from `charField` (no claim exercises them). -/
inductive FieldType where
  | integerField
  | charField
  | dateTimeField
  | foreignKey
  | commaSeparatedField
  | otherField
  deriving DecidableEq, Repr

/-- `self._meta`: field name to field class, as declared by the model. -/
def Schema := List (String × FieldType)

/-- `self._meta.get_field(key)`; `none` models `FieldDoesNotExist`. -/
def getField (schema : Schema) (key : String) : Option FieldType :=
  ((schema : List (String × FieldType)).find? (fun p => p.1 == key)).map (fun p => p.2)

/-- `OdnoklassnikiModel.remote_pk_field` (class default). -/
def remotePkFieldName : String := "id"

/-- `OdnoklassnikiModel.remote_pk_local_field` (class default). -/
def remotePkLocalFieldName : String := "id"

/-- `setattr(self, key, value)` on the attribute map of an instance. -/
def setAttr (attrs : List (String × Value)) (k : String) (v : Value) : List (String × Value) :=
  if attrs.any (fun p => p.1 == k) then
    attrs.map (fun p => if p.1 == k then (p.1, v) else p)
  else attrs ++ [(k, v)]

def RawList.toList : RawList → List Raw
  | .nil => []
  | .cons x tl => x :: tl.toList

/-- `','.join([unicode(v) for v in value])`. -/
def commaJoin (xs : RawList) : String :=
  String.intercalate "," (xs.toList.map pyStr)

/-- One iteration of the `for key, value in response.items()` loop of
`OdnoklassnikiModel.parse`.  `relLookup pk` models whether
`rel_class.objects.get(pk=pk)` finds a persisted related record. -/
def parseKeyStep (schema : Schema) (relLookup : Raw → Bool)
    (attrs : List (String × Value)) (k : String) (v : Raw) : List (String × Value) :=
  let key0 := strLower k
  let key := if key0 = remotePkFieldName then remotePkLocalFieldName else key0
  match getField schema key with
  | none => attrs
  | some field =>
    let value : Value :=
      if field = FieldType.integerField ∧ truthyRaw v then
        match pyIntOfRaw v with
        | some n => .vint n
        | none => rawToValue v
      else if field = FieldType.charField then
        match v with
        | .b _ => .vstr ""
        | _ => .vstr (pyStr v)
      else if field = FieldType.dateTimeField then
        coerceDateTime v
      else rawToValue v
    let kv1 : String × Value :=
      if field = FieldType.foreignKey ∧ truthyRaw v then
        match v with
        | .obj _ =>
          -- `value = rel_class().parse(dict(value))`: `parse` has no return
          -- statement, so this assigns `None`, discarding the sub-resource.
          (key, Value.vnull)
        | _ =>
          if relLookup v then (key, Value.vrelated v)
          else (key ++ "_id", rawToValue v)
      else (key, value)
    let kv2 : String × Value :=
      if field = FieldType.commaSeparatedField then
        match kv1.2 with
        | .varr xs => (kv1.1, Value.vstr (commaJoin xs))
        | _ => kv1
      else kv1
    setAttr attrs kv2.1 kv2.2

/-- `OdnoklassnikiModel.parse(response)`, starting from the attributes the
instance already carries (the extra fields stamped by the manager). -/
def parse (schema : Schema) (relLookup : Raw → Bool)
    (init : List (String × Value)) (response : List (String × Raw)) : List (String × Value) :=
  response.foldl (fun attrs kv => parseKeyStep schema relLookup attrs kv.1 kv.2) init

/-! ## Response normalization (`OdnoklassnikiManager`) -/

/-- The exception classes that can abort response normalization:
Python's builtin `TypeError` / `ValueError` and the repo's own
`OdnoklassnikiContentError`. -/
inductive PyErr where
  | typeError
  | valueError
  | contentError
  deriving DecidableEq, Repr

/-- Python `dict(resource)`: mappings convert to themselves, an empty list
or empty string converts to the empty dict, a nonempty string raises
`ValueError`, and non-iterable values raise `TypeError`. -/
def toDict : Raw → Except PyErr (List (String × Raw))
  | .obj kvs => .ok kvs.entries
  | .arr .nil => .ok []
  | .arr (.cons _ _) => .error .typeError
  | .s t => if t = "" then .ok [] else .error .valueError
  | .null => .error .typeError
  | .i _ => .error .typeError
  | .b _ => .error .typeError

/-- `OdnoklassnikiManager.parse_response_dict`: create a fresh model
instance, stamp the extra fields onto its `__dict__`, then `parse`. -/
def parse_response_dict (schema : Schema) (relLookup : Raw → Bool)
    (extra : List (String × Value)) (resource : List (String × Raw)) : List (String × Value) :=
  parse schema relLookup extra resource

/-- The per-element unwrap at the top of the `parse_response_list` loop:
`if isinstance(resource, list) and len(resource): resource = resource[0]`. -/
def unwrapElem : Raw → Raw
  | .arr (.cons y _) => y
  | r => r

/-- `OdnoklassnikiManager.parse_response_list`: unwrap one-or-more-element
sequences, skip bare integers, coerce each remaining element to a dict
(re-raising the coercion's own error on failure) and parse it. -/
def parse_response_list (schema : Schema) (relLookup : Raw → Bool)
    (extra : List (String × Value)) :
    List Raw → Except PyErr (List (List (String × Value)))
  | [] => .ok []
  | r :: rest =>
    let r1 := unwrapElem r
    if isPyInt r1 then parse_response_list schema relLookup extra rest
    else
      match toDict r1 with
      | .error e => .error e
      | .ok kvs =>
        match parse_response_list schema relLookup extra rest with
        | .error e => .error e
        | .ok instances => .ok (parse_response_dict schema relLookup extra kvs :: instances)

/-! ## Identity reconciliation (`OdnoklassnikiModel._substitute` and
`OdnoklassnikiManager.get_or_create_from_instance`)

An in-memory model instance: a storage identity (`pk`, `none` until the
record is saved), the key list of its `__dict__`, and its attribute
values.  The persistence layer is a `Store`: a list of saved records plus
the next auto-assigned primary key. -/

structure PyInstance where
  pk : Option Int
  keys : List String
  attrs : String → Value

/-- The per-attribute substitution rule of `_substitute`:
`if old_value and (new_value is None or new_value == ''): keep old`. -/
def substituteField (oldValue newValue : Value) : Value :=
  if truthy oldValue = true ∧ isNoneOrEmptyStr newValue = true then oldValue else newValue

/-- One iteration of the `for key, old_value in old_instance.__dict__.items()`
loop of `_substitute`. -/
def substituteStep (self : PyInstance) (k : String) (oldValue : Value) : PyInstance :=
  if truthy oldValue = true ∧ isNoneOrEmptyStr (self.attrs k) = true then
    PyInstance.mk self.pk self.keys (fun k2 => if k2 = k then oldValue else self.attrs k2)
  else self

/-- `OdnoklassnikiModel._substitute(old_instance)`: adopt the old record's
storage identity, then backfill every attribute whose old value is truthy
and whose new value is `None` or the empty string. -/
def substitute (self old : PyInstance) : PyInstance :=
  old.keys.foldl (fun acc k => substituteStep acc k (old.attrs k))
    (PyInstance.mk old.pk self.keys self.attrs)

structure Store where
  nextPk : Int
  records : List PyInstance

/-- Django `instance.save()`: no primary key means insert with a fresh
auto-assigned key; an existing key updates the matching row, a key with no
matching row inserts. -/
def save (st : Store) (inst : PyInstance) : PyInstance × Store :=
  match inst.pk with
  | none =>
    let saved := PyInstance.mk (some st.nextPk) inst.keys inst.attrs
    (saved, Store.mk (st.nextPk + 1) (st.records ++ [saved]))
  | some p =>
    if st.records.any (fun r => r.pk == some p) then
      (inst, Store.mk st.nextPk (st.records.map (fun r => if r.pk == some p then inst else r)))
    else (inst, Store.mk st.nextPk (st.records ++ [inst]))

/-- `self.model.objects.get(**remote_pk_dict)`: does record `r` carry the
same values as `inst` on every remote-identity field? -/
def matchesRemotePk (remotePk : List String) (inst r : PyInstance) : Bool :=
  remotePk.all (fun f => r.attrs f == inst.attrs f)

/-- `OdnoklassnikiManager.get_or_create_from_instance`: when the manager
declares remote-identity fields, look up an existing record with the same
identity values; if found, `_substitute` the new instance with it before
saving, otherwise save the new instance as-is. -/
def get_or_create_from_instance (remotePk : List String) (st : Store)
    (inst : PyInstance) : PyInstance × Store :=
  if remotePk.isEmpty then save st inst
  else
    match st.records.find? (fun r => matchesRemotePk remotePk inst r) with
    | some old => save st (substitute inst old)
    | none => save st inst

/-! ## Timeline filtering (`OdnoklassnikiTimelineManager.get`)

Datetimes are modelled as integer instants on the time axis (all the loop
does with them is compare).  The cut attribute of an instance is either a
datetime, absent, or present with a non-datetime value. -/

inductive TimelineAttr where
  | missing
  | dtv (t : Int)
  | nonDt (isTruthy : Bool)
  deriving DecidableEq, Repr

structure TimelineInst where
  ident : Nat
  cut : TimelineAttr
  deriving DecidableEq, Repr

/-- What `get_timeline_date` can return: a datetime instant, or a
non-datetime value of known truthiness. -/
inductive TimelineDateVal where
  | dt (t : Int)
  | other (isTruthy : Bool)
  deriving DecidableEq, Repr

/-- `datetime(1970, 1, 1).replace(tzinfo=utc)`, as an instant: epoch 0. -/
def timelineSentinel : Int := 0

/-- `get_timeline_date`: `getattr(instance, timeline_cut_fieldname,
datetime(1970, 1, 1).replace(tzinfo=utc))` — an absent attribute yields the
1970 sentinel datetime. -/
def get_timeline_date (i : TimelineInst) : TimelineDateVal :=
  match i.cut with
  | .missing => .dt timelineSentinel
  | .dtv t => .dt t
  | .nonDt bb => .other bb

/-- `if after and after > timeline_date` — the cursor, when supplied, is a
datetime and hence truthy. -/
def afterTest (after : Option Int) (t : Int) : Bool :=
  match after with
  | some a => a > t
  | none => false

/-- `if before and before < timeline_date`. -/
def beforeTest (before : Option Int) (t : Int) : Bool :=
  match before with
  | some bv => bv < t
  | none => false

/-- The filtering loop of `OdnoklassnikiTimelineManager.get`: a truthy
datetime cut value is tested against the cursors (`break` on `after`,
`continue` on `before`); a non-datetime cut value fails the
`timeline_date and isinstance(timeline_date, datetime)` guard (datetime
objects are always truthy in Python), so the instance is kept. -/
def timelineFilter (after before : Option Int) : List TimelineInst → List TimelineInst
  | [] => []
  | i :: rest =>
    match get_timeline_date i with
    | .dt t =>
      if afterTest after t then []
      else if beforeTest before t then timelineFilter after before rest
      else i :: timelineFilter after before rest
    | .other _ => i :: timelineFilter after before rest

/-- Does the `after` cursor trigger the loop's `break` at this instance? -/
def afterBreaksAt (after : Option Int) (i : TimelineInst) : Bool :=
  match get_timeline_date i with
  | .dt t => afterTest after t
  | .other _ => false

/-- A minimal entity schema: a single integer `id` field, as carried by
`OdnoklassnikiPKModel` (`BigIntegerField` primary key). -/
def idSchema : Schema := [("id", FieldType.integerField)]

/-- A schema with one foreign-key field named `group`. -/
def fkSchema : Schema := [("group", FieldType.foreignKey)]

/-- A related-record lookup that finds nothing
(`rel_class.objects.get` always raises `DoesNotExist`). -/
def noRel : Raw → Bool := fun _ => false

/-! ## Helper lemmas -/

theorem truthy_not_noneOrEmpty (v : Value) (h : truthy v = true) :
    isNoneOrEmptyStr v = false := by
  cases v with
  | vnull => exact absurd h (by simp [truthy])
  | vbool x => rfl
  | vint n => rfl
  | vstr t =>
    have ht : t ≠ "" := by simpa [truthy] using h
    simp [isNoneOrEmptyStr, ht]
  | varr xs => rfl
  | vobj kvs => rfl
  | vdtMoscow dt => rfl
  | vdtUtcEpoch n => rfl
  | vrelated pk => rfl

theorem substituteField_idem (o n : Value) :
    substituteField o (substituteField o n) = substituteField o n := by
  unfold substituteField
  by_cases hc : truthy o = true ∧ isNoneOrEmptyStr n = true
  · simp only [hc, if_pos]
    simp [truthy_not_noneOrEmpty o hc.1]
  · simp [hc]

theorem substituteStep_attrs (acc : PyInstance) (k : String) (v : Value) (F : String) :
    (substituteStep acc k v).attrs F =
      if k = F then substituteField v (acc.attrs F) else acc.attrs F := by
  unfold substituteStep substituteField
  by_cases hk : k = F
  · subst hk
    by_cases hc : truthy v = true ∧ isNoneOrEmptyStr (acc.attrs k) = true
    · simp [hc]
    · simp [hc]
  · have hF : ¬(F = k) := fun h => hk h.symm
    by_cases hc : truthy v = true ∧ isNoneOrEmptyStr (acc.attrs k) = true
    · simp [hc, hk, hF]
    · simp [hc, hk]

theorem substituteStep_pk (acc : PyInstance) (k : String) (v : Value) :
    (substituteStep acc k v).pk = acc.pk := by
  unfold substituteStep
  by_cases hc : truthy v = true ∧ isNoneOrEmptyStr (acc.attrs k) = true
  · simp [hc]
  · simp [hc]

theorem substituteFold_attrs (old : PyInstance) (l : List String) (acc : PyInstance) (F : String) :
    (l.foldl (fun a k => substituteStep a k (old.attrs k)) acc).attrs F =
      if F ∈ l then substituteField (old.attrs F) (acc.attrs F) else acc.attrs F := by
  induction l generalizing acc with
  | nil => simp
  | cons k tl ih =>
    simp only [List.foldl_cons, ih]
    rw [substituteStep_attrs]
    by_cases hk : k = F
    · subst hk
      by_cases hm : k ∈ tl
      · simp [hm, substituteField_idem]
      · simp [hm]
    · have hF : ¬(F = k) := fun h => hk h.symm
      by_cases hm : F ∈ tl
      · simp [hm, hk, hF, List.mem_cons]
      · simp [hm, hk, hF, List.mem_cons]

theorem substituteFold_pk (old : PyInstance) (l : List String) (acc : PyInstance) :
    (l.foldl (fun a k => substituteStep a k (old.attrs k)) acc).pk = acc.pk := by
  induction l generalizing acc with
  | nil => simp
  | cons k tl ih => simp [ih, substituteStep_pk]

/-- The attribute values produced by `_substitute`: for every key of the old
record's `__dict__`, the per-field substitution rule; other attributes keep
the new instance's value. -/
theorem substitute_attrs (self old : PyInstance) (F : String) :
    (substitute self old).attrs F =
      if F ∈ old.keys then substituteField (old.attrs F) (self.attrs F)
      else self.attrs F := by
  unfold substitute
  simp [substituteFold_attrs]

/-- `_substitute` adopts the old record's storage identity (`self.pk =
old_instance.pk`). -/
theorem substitute_pk (self old : PyInstance) :
    (substitute self old).pk = old.pk := by
  unfold substitute
  simp [substituteFold_pk]

theorem matchesRemotePk_congr (rp : List String) (i1 i2 r : PyInstance)
    (h : ∀ f ∈ rp, i1.attrs f = i2.attrs f) :
    matchesRemotePk rp i1 r = matchesRemotePk rp i2 r := by
  unfold matchesRemotePk
  induction rp with
  | nil => rfl
  | cons f tl ih =>
    have hf : i1.attrs f = i2.attrs f := h f (List.mem_cons_self f tl)
    have htl : ∀ g ∈ tl, i1.attrs g = i2.attrs g := fun g hg => h g (List.mem_cons_of_mem f hg)
    simp [List.all_cons, hf, ih htl]

theorem isNoneOrEmptyStr_of_cases (v : Value)
    (h : v = Value.vnull ∨ v = Value.vstr "") : isNoneOrEmptyStr v = true := by
  rcases h with h | h <;> simp [h, isNoneOrEmptyStr]

theorem isNoneOrEmptyStr_false_of_ne (v : Value)
    (h1 : v ≠ Value.vnull) (h2 : v ≠ Value.vstr "") : isNoneOrEmptyStr v = false := by
  cases v with
  | vnull => exact absurd rfl h1
  | vstr t =>
    have ht : t ≠ "" := fun h => h2 (by rw [h])
    simp [isNoneOrEmptyStr, ht]
  | vbool x => rfl
  | vint n => rfl
  | varr xs => rfl
  | vobj kvs => rfl
  | vdtMoscow dt => rfl
  | vdtUtcEpoch n => rfl
  | vrelated pk => rfl

/-! ## Claims -/

/-- C1, counterexample.  The claim reads "empty" as null-or-empty-string,
so an existing integer value `0` counts as non-empty; yet with an existing
`score = 0` and a new parse yielding `None`, the reconciled instance
carries `None`, not the existing `0`: the backfill guard `if old_value:`
tests Python truthiness, and `0` is falsy. -/
theorem substitute_c1_counterexample :
    (substitute (PyInstance.mk none ["score"] (fun _ => Value.vnull))
        (PyInstance.mk (some 1) ["score"]
          (fun k => if k = "score" then Value.vint 0 else Value.vnull))).attrs "score"
      = Value.vnull ∧ Value.vnull ≠ Value.vint 0 := by
  constructor
  · decide
  · intro h
    exact Value.noConfusion h

/-- C1, amended: reconciliation is value-preserving for truthy existing
values.  For every field `F` of the existing record: if the existing value
is truthy (non-null, non-zero, non-false, non-empty) and the new instance's
value is null or the empty string, the reconciled instance carries the
existing value; and if the new instance's value is non-empty (neither null
nor the empty string), the reconciled instance carries the new value
regardless of the existing one. -/
theorem substitute_value_preserving (new old : PyInstance) (F : String)
    (hmem : F ∈ old.keys) :
    (truthy (old.attrs F) = true →
      (new.attrs F = Value.vnull ∨ new.attrs F = Value.vstr "") →
      (substitute new old).attrs F = old.attrs F) ∧
    (new.attrs F ≠ Value.vnull → new.attrs F ≠ Value.vstr "" →
      (substitute new old).attrs F = new.attrs F) := by
  constructor
  · intro ht he
    rw [substitute_attrs]
    rw [if_pos hmem]
    unfold substituteField
    rw [if_pos ⟨ht, isNoneOrEmptyStr_of_cases _ he⟩]
  · intro h1 h2
    rw [substitute_attrs]
    rw [if_pos hmem]
    unfold substituteField
    rw [if_neg]
    intro hc
    rw [isNoneOrEmptyStr_false_of_ne _ h1 h2] at hc
    exact Bool.false_ne_true hc.2

/-- Witness for the amended C1 at a concrete input: existing record with
`name = "x"`, new parse with `name = None`; the reconciled instance keeps
`"x"`. -/
theorem substitute_value_preserving_witness :
    (substitute (PyInstance.mk none ["name"] (fun _ => Value.vnull))
        (PyInstance.mk (some 3) ["name"] (fun _ => Value.vstr "x"))).attrs "name"
      = (PyInstance.mk (some 3) ["name"] (fun _ => Value.vstr "x" : String → Value)).attrs "name" :=
  (substitute_value_preserving
      (PyInstance.mk none ["name"] (fun _ => Value.vnull))
      (PyInstance.mk (some 3) ["name"] (fun _ => Value.vstr "x"))
      "name" (by decide)).1 (by decide) (Or.inl rfl)

/-- C10: during reconciliation, an attribute is backfilled from the existing
record exactly when the existing value is truthy and the new value is
`None` or the empty string.  In particular a new `0` or `False` is kept,
and an existing `0`, `False` or `""` is never backfilled even over a new
`None`. -/
theorem substitute_backfill_exact (new old : PyInstance) (F : String)
    (hmem : F ∈ old.keys) :
    (truthy (old.attrs F) = true → isNoneOrEmptyStr (new.attrs F) = true →
      (substitute new old).attrs F = old.attrs F) ∧
    (truthy (old.attrs F) = false ∨ isNoneOrEmptyStr (new.attrs F) = false →
      (substitute new old).attrs F = new.attrs F) ∧
    (new.attrs F = Value.vint 0 → (substitute new old).attrs F = Value.vint 0) ∧
    (new.attrs F = Value.vbool false → (substitute new old).attrs F = Value.vbool false) ∧
    ((old.attrs F = Value.vint 0 ∨ old.attrs F = Value.vbool false ∨ old.attrs F = Value.vstr "") →
      new.attrs F = Value.vnull → (substitute new old).attrs F = Value.vnull) := by
  have hbase : (substitute new old).attrs F = substituteField (old.attrs F) (new.attrs F) := by
    rw [substitute_attrs, if_pos hmem]
  have hkeep : ∀ (hc : ¬(truthy (old.attrs F) = true ∧ isNoneOrEmptyStr (new.attrs F) = true)),
      (substitute new old).attrs F = new.attrs F := by
    intro hc
    rw [hbase]
    unfold substituteField
    rw [if_neg hc]
  refine ⟨?_, ?_, ?_, ?_, ?_⟩
  · intro ht he
    rw [hbase]
    unfold substituteField
    rw [if_pos ⟨ht, he⟩]
  · intro h
    refine hkeep ?_
    intro hc
    rcases h with h | h
    · rw [h] at hc
      exact Bool.false_ne_true hc.1
    · rw [h] at hc
      exact Bool.false_ne_true hc.2
  · intro h
    rw [hkeep ?_, h]
    intro hc
    rw [h] at hc
    exact Bool.false_ne_true hc.2
  · intro h
    rw [hkeep ?_, h]
    intro hc
    rw [h] at hc
    exact Bool.false_ne_true hc.2
  · intro hold hnew
    rw [hkeep ?_, hnew]
    intro hc
    rcases hold with h | h | h <;> rw [h] at hc <;> exact Bool.false_ne_true hc.1

/-- Witness for C10 at a concrete input: existing `score = 5` (truthy), new
`score = 0`; the reconciled instance keeps the new `0`. -/
theorem substitute_backfill_exact_witness :
    (substitute (PyInstance.mk none ["score"] (fun _ => Value.vint 0))
        (PyInstance.mk (some 4) ["score"] (fun _ => Value.vint 5))).attrs "score"
      = Value.vint 0 :=
  (substitute_backfill_exact
      (PyInstance.mk none ["score"] (fun _ => Value.vint 0))
      (PyInstance.mk (some 4) ["score"] (fun _ => Value.vint 5))
      "score" (by decide)).2.2.1 rfl

/-- C2: reconciliation is identity-stable.  Starting from a store with no
record matching the remote identity, running
`get_or_create_from_instance` twice with instances sharing their
remote-identity field values yields the same storage identity both times,
and the second run does not grow the store (no duplicate record). -/
theorem get_or_create_identity_stable (remotePk : List String) (s0 : Store)
    (inst1 inst2 : PyInstance)
    (hrp : remotePk ≠ [])
    (hpk1 : inst1.pk = none)
    (hid : ∀ f ∈ remotePk, inst1.attrs f = inst2.attrs f)
    (hnew : s0.records.find? (fun r => matchesRemotePk remotePk inst1 r) = none) :
    ((get_or_create_from_instance remotePk
        (get_or_create_from_instance remotePk s0 inst1).2 inst2).1.pk
      = (get_or_create_from_instance remotePk s0 inst1).1.pk) ∧
    ((get_or_create_from_instance remotePk
        (get_or_create_from_instance remotePk s0 inst1).2 inst2).2.records.length
      = (get_or_create_from_instance remotePk s0 inst1).2.records.length) := by
  have hrpe : remotePk.isEmpty = false := by
    cases remotePk with
    | nil => exact absurd rfl hrp
    | cons a l => rfl
  have hrun1 : get_or_create_from_instance remotePk s0 inst1 =
      (PyInstance.mk (some s0.nextPk) inst1.keys inst1.attrs,
       Store.mk (s0.nextPk + 1)
         (s0.records ++ [PyInstance.mk (some s0.nextPk) inst1.keys inst1.attrs])) := by
    unfold get_or_create_from_instance
    rw [if_neg (by simp [hrpe])]
    rw [hnew]
    unfold save
    rw [hpk1]
  have hmatch : matchesRemotePk remotePk inst2
      (PyInstance.mk (some s0.nextPk) inst1.keys inst1.attrs) = true := by
    unfold matchesRemotePk
    rw [List.all_eq_true]
    intro f hf
    have : inst1.attrs f = inst2.attrs f := hid f hf
    simp [this]
  have hfind2 : (s0.records ++ [PyInstance.mk (some s0.nextPk) inst1.keys inst1.attrs]).find?
      (fun r => matchesRemotePk remotePk inst2 r)
      = some (PyInstance.mk (some s0.nextPk) inst1.keys inst1.attrs) := by
    rw [List.find?_append]
    have h1 : s0.records.find? (fun r => matchesRemotePk remotePk inst2 r) = none := by
      rw [List.find?_eq_none] at hnew ⊢
      intro r hr
      have := hnew r hr
      simp only [← matchesRemotePk_congr remotePk inst1 inst2 r hid]
      exact this
    rw [h1]
    simp [List.find?, hmatch]
  have hsubpk : (substitute inst2 (PyInstance.mk (some s0.nextPk) inst1.keys inst1.attrs)).pk
      = some s0.nextPk := by
    rw [substitute_pk]
  have hany : (s0.records ++ [PyInstance.mk (some s0.nextPk) inst1.keys inst1.attrs]).any
      (fun r => r.pk == some s0.nextPk) = true := by
    rw [List.any_append]
    simp
  rw [hrun1]
  unfold get_or_create_from_instance
  rw [if_neg (by simp [hrpe])]
  simp only [hfind2]
  unfold save
  rw [hsubpk]
  simp only [hany, if_pos]
  constructor
  · rw [hsubpk]
  · simp

/-- Witness for C2 at a concrete input: a fresh store, two parses of remote
id 42; the second run reuses primary key 1 and the store still has exactly
one record. -/
theorem get_or_create_identity_stable_witness :
    ((get_or_create_from_instance ["id"]
        (get_or_create_from_instance ["id"] (Store.mk 1 [])
          (PyInstance.mk none ["id"] (fun _ => Value.vint 42))).2
        (PyInstance.mk none ["id"] (fun _ => Value.vint 42))).1.pk
      = (get_or_create_from_instance ["id"] (Store.mk 1 [])
          (PyInstance.mk none ["id"] (fun _ => Value.vint 42))).1.pk) ∧
    ((get_or_create_from_instance ["id"]
        (get_or_create_from_instance ["id"] (Store.mk 1 [])
          (PyInstance.mk none ["id"] (fun _ => Value.vint 42))).2
        (PyInstance.mk none ["id"] (fun _ => Value.vint 42))).2.records.length
      = (get_or_create_from_instance ["id"] (Store.mk 1 [])
          (PyInstance.mk none ["id"] (fun _ => Value.vint 42))).2.records.length) :=
  get_or_create_identity_stable ["id"] (Store.mk 1 [])
    (PyInstance.mk none ["id"] (fun _ => Value.vint 42))
    (PyInstance.mk none ["id"] (fun _ => Value.vint 42))
    (by intro h; exact List.noConfusion h) rfl (fun f _ => rfl) rfl

theorem toDict_error_kind (r : Raw) (err : PyErr) (h : toDict r = .error err) :
    err = PyErr.typeError ∨ err = PyErr.valueError := by
  cases r with
  | null => exact Or.inl (Except.error.inj h).symm
  | b x => exact Or.inl (Except.error.inj h).symm
  | i n => exact Or.inl (Except.error.inj h).symm
  | s t =>
    by_cases ht : t = ""
    · simp [toDict, ht] at h
    · simp only [toDict, if_neg ht] at h
      exact Or.inr (Except.error.inj h).symm
  | arr xs =>
    cases xs with
    | nil => exact Except.noConfusion h
    | cons hd tl => exact Or.inl (Except.error.inj h).symm
  | obj kvs => exact Except.noConfusion h

/-- C3, counterexample.  The element `None` is neither a one-or-more-element
sequence nor a bare integer and cannot be coerced to a mapping; the whole
normalization aborts, but by re-raising the coercion's `TypeError`
(`raise e` at the end of the `except` clause), not with
`OdnoklassnikiContentError` as the claim states. -/
theorem parse_response_list_error_kind_counterexample :
    parse_response_list idSchema noRel [] [Raw.null] = .error PyErr.typeError ∧
    PyErr.typeError ≠ PyErr.contentError := by
  constructor
  · rfl
  · intro h
    exact PyErr.noConfusion h

/-- C3, amended: for a sequence-shaped response, when an element is neither
a one-or-more-element sequence nor a bare integer and cannot be coerced to
a mapping, the whole normalization aborts with the coercion's own error
(the re-raised `TypeError` / `ValueError`) and no partial result — not with
a Content error. -/
theorem parse_response_list_aborts_on_bad_element
    (schema : Schema) (rel : Raw → Bool) (extra : List (String × Value))
    (pre : List Raw) (e : Raw) (post : List Raw) (err : PyErr)
    (hpre : ∀ x ∈ pre, isPyInt (unwrapElem x) = true ∨
        ∃ kvs, toDict (unwrapElem x) = .ok kvs)
    (hint : isPyInt (unwrapElem e) = false)
    (herr : toDict (unwrapElem e) = .error err) :
    parse_response_list schema rel extra (pre ++ e :: post) = .error err ∧
    (err = PyErr.typeError ∨ err = PyErr.valueError) := by
  refine ⟨?_, toDict_error_kind _ _ herr⟩
  induction pre with
  | nil =>
    simp only [List.nil_append, parse_response_list]
    rw [hint]
    simp only [Bool.false_eq_true, if_false]
    rw [herr]
  | cons x tl ih =>
    have hihres : parse_response_list schema rel extra (tl ++ e :: post) = .error err :=
      ih (fun q hq => hpre q (List.mem_cons_of_mem x hq))
    rw [List.cons_append]
    by_cases hx : isPyInt (unwrapElem x) = true
    · simp only [parse_response_list]
      rw [if_pos hx]
      exact hihres
    · have hok : ∃ kvs, toDict (unwrapElem x) = .ok kvs := by
        rcases hpre x (List.mem_cons_self x tl) with h | h
        · exact absurd h hx
        · exact h
      rcases hok with ⟨kvs, hkvs⟩
      simp only [parse_response_list]
      rw [if_neg hx, hkvs, hihres]

/-- Witness for the amended C3 at a concrete input: a well-formed leading
element, then `None`; normalization aborts with the re-raised
`TypeError`. -/
theorem parse_response_list_aborts_on_bad_element_witness :
    parse_response_list idSchema noRel [] ([Raw.obj RawDict.nil] ++ Raw.null :: [])
      = .error PyErr.typeError ∧
    (PyErr.typeError = PyErr.typeError ∨ PyErr.typeError = PyErr.valueError) :=
  parse_response_list_aborts_on_bad_element idSchema noRel []
    [Raw.obj RawDict.nil] Raw.null [] PyErr.typeError
    (by
      intro x hx
      rcases List.mem_singleton.mp hx with h
      rw [h]
      exact Or.inr ⟨[], rfl⟩)
    rfl rfl

/-- C9: the sequence response `[5, {"id": 1}, [{"id": 2}]]` normalizes to
exactly two parsed instances with ids 1 and 2 in that order: the leading
bare integer is skipped and the singleton-list element is replaced by its
first item before coercion. -/
theorem parse_response_list_example :
    parse_response_list idSchema noRel []
        [Raw.i 5, Raw.obj (RawDict.cons "id" (Raw.i 1) RawDict.nil),
         Raw.arr (RawList.cons (Raw.obj (RawDict.cons "id" (Raw.i 2) RawDict.nil)) RawList.nil)]
      = Except.ok [[("id", Value.vint 1)], [("id", Value.vint 2)]] := rfl

theorem timelineFilter_cons_dt (after before : Option Int) (i : TimelineInst)
    (rest : List TimelineInst) (t : Int) (h : get_timeline_date i = TimelineDateVal.dt t) :
    timelineFilter after before (i :: rest) =
      if afterTest after t = true then []
      else if beforeTest before t = true then timelineFilter after before rest
      else i :: timelineFilter after before rest := by
  simp only [timelineFilter]
  rw [h]

theorem timelineFilter_cons_other (after before : Option Int) (i : TimelineInst)
    (rest : List TimelineInst) (bb : Bool)
    (h : get_timeline_date i = TimelineDateVal.other bb) :
    timelineFilter after before (i :: rest) = i :: timelineFilter after before rest := by
  simp only [timelineFilter]
  rw [h]

/-- C4, counterexample.  An instance whose cut-field is absent gets the 1970
sentinel datetime from `getattr`'s default, which *is* truthy and a
datetime, so with `after` set it triggers the `break` and the instance is
excluded; and the `break` on an earlier instance also drops a later
instance whose cut value is not a datetime.  Both contradict "always
included, for every combination of `after` and `before`". -/
theorem timeline_unusable_cut_counterexample :
    timelineFilter (some 1) none [TimelineInst.mk 1 TimelineAttr.missing] = [] ∧
    timelineFilter (some 1) none
      [TimelineInst.mk 1 (TimelineAttr.dtv 0), TimelineInst.mk 2 (TimelineAttr.nonDt true)]
      = [] := by
  exact ⟨rfl, rfl⟩

/-- C4, amended: an instance whose cut-field is *present but not a
datetime* fails the `timeline_date and isinstance(timeline_date, datetime)`
guard and is always kept — provided iteration reaches it, i.e. no earlier
instance triggered the `after` break.  (An instance whose cut-field is
absent instead receives the 1970 sentinel datetime and is subject to the
cursor filtering.) -/
theorem timeline_nonDt_always_kept (after before : Option Int)
    (pre : List TimelineInst) (i : TimelineInst) (post : List TimelineInst) (bb : Bool)
    (hcut : i.cut = TimelineAttr.nonDt bb)
    (hpre : ∀ p ∈ pre, afterBreaksAt after p = false) :
    i ∈ timelineFilter after before (pre ++ i :: post) := by
  induction pre with
  | nil =>
    have hgd : get_timeline_date i = TimelineDateVal.other bb := by
      unfold get_timeline_date
      rw [hcut]
    rw [List.nil_append, timelineFilter_cons_other after before i post bb hgd]
    exact List.mem_cons_self i _
  | cons p tl ih =>
    have hih : i ∈ timelineFilter after before (tl ++ i :: post) :=
      ih (fun q hq => hpre q (List.mem_cons_of_mem p hq))
    have hp : afterBreaksAt after p = false := hpre p (List.mem_cons_self p tl)
    rw [List.cons_append]
    cases hgd : get_timeline_date p with
    | dt t =>
      have hat : afterTest after t = false := by
        unfold afterBreaksAt at hp
        rw [hgd] at hp
        exact hp
      rw [timelineFilter_cons_dt after before p (tl ++ i :: post) t hgd]
      rw [if_neg (by rw [hat]; exact Bool.false_ne_true)]
      by_cases hb : beforeTest before t = true
      · rw [if_pos hb]
        exact hih
      · rw [if_neg hb]
        exact List.mem_cons_of_mem p hih
    | other b2 =>
      rw [timelineFilter_cons_other after before p (tl ++ i :: post) b2 hgd]
      exact List.mem_cons_of_mem p hih

/-- Witness for the amended C4 at a concrete input: a preceding instance
that does not trigger the break, then an instance with a non-datetime cut
value; the latter is in the result. -/
theorem timeline_nonDt_always_kept_witness :
    TimelineInst.mk 2 (TimelineAttr.nonDt true) ∈
      timelineFilter (some 5) (some 3)
        [TimelineInst.mk 1 (TimelineAttr.dtv 10), TimelineInst.mk 2 (TimelineAttr.nonDt true)] :=
  timeline_nonDt_always_kept (some 5) (some 3)
    [TimelineInst.mk 1 (TimelineAttr.dtv 10)]
    (TimelineInst.mk 2 (TimelineAttr.nonDt true)) [] true rfl
    (by
      intro p hp
      rcases List.mem_singleton.mp hp with h
      rw [h]
      rfl)

/-- C8: in the timeline loop, an `after` cursor strictly greater than an
instance's datetime cut-date stops iteration entirely (nothing from that
instance on is returned), while a `before` cursor strictly less than the
cut-date skips just that instance; and on the spec's concrete example with
descending cut-dates [2020-03-01, 2020-02-01, 2020-01-01],
`after = 2020-02-15` yields only the first instance and
`before = 2020-02-15` yields the last two. -/
theorem timeline_after_stops_before_skips :
    (∀ (a : Int) (before : Option Int) (i : TimelineInst) (post : List TimelineInst) (t : Int),
      i.cut = TimelineAttr.dtv t → a > t →
      timelineFilter (some a) before (i :: post) = []) ∧
    (∀ (after : Option Int) (bv t : Int) (i : TimelineInst) (post : List TimelineInst),
      i.cut = TimelineAttr.dtv t → bv < t → afterTest after t = false →
      timelineFilter after (some bv) (i :: post) = timelineFilter after (some bv) post) ∧
    timelineFilter (some 20200215) none
      [TimelineInst.mk 1 (TimelineAttr.dtv 20200301), TimelineInst.mk 2 (TimelineAttr.dtv 20200201),
       TimelineInst.mk 3 (TimelineAttr.dtv 20200101)]
      = [TimelineInst.mk 1 (TimelineAttr.dtv 20200301)] ∧
    timelineFilter none (some 20200215)
      [TimelineInst.mk 1 (TimelineAttr.dtv 20200301), TimelineInst.mk 2 (TimelineAttr.dtv 20200201),
       TimelineInst.mk 3 (TimelineAttr.dtv 20200101)]
      = [TimelineInst.mk 2 (TimelineAttr.dtv 20200201), TimelineInst.mk 3 (TimelineAttr.dtv 20200101)] := by
  refine ⟨?_, ?_, by decide, by decide⟩
  · intro a before i post t hcut hgt
    have hgd : get_timeline_date i = TimelineDateVal.dt t := by
      unfold get_timeline_date
      rw [hcut]
    rw [timelineFilter_cons_dt (some a) before i post t hgd]
    rw [if_pos]
    unfold afterTest
    exact decide_eq_true hgt
  · intro after bv t i post hcut hlt hat
    have hgd : get_timeline_date i = TimelineDateVal.dt t := by
      unfold get_timeline_date
      rw [hcut]
    rw [timelineFilter_cons_dt after (some bv) i post t hgd]
    rw [if_neg (by rw [hat]; exact Bool.false_ne_true)]
    rw [if_pos]
    unfold beforeTest
    exact decide_eq_true hlt

/-- Witness for C8 at a concrete input: `after = 5` strictly greater than
the cut-date 3 stops iteration, dropping the whole tail. -/
theorem timeline_after_stops_before_skips_witness :
    timelineFilter (some 5) none
      [TimelineInst.mk 9 (TimelineAttr.dtv 3), TimelineInst.mk 10 (TimelineAttr.dtv 100)] = [] :=
  timeline_after_stops_before_skips.1 5 none (TimelineInst.mk 9 (TimelineAttr.dtv 3))
    [TimelineInst.mk 10 (TimelineAttr.dtv 100)] 3 rfl (by decide)

/-- C5, evaluation at the failing input.  For a foreign-key field whose raw
value is the nested mapping `{"id": 7}`, the code assigns `None` — because
`value = rel_class().parse(dict(value))` calls a method with no `return`
statement — instead of the recursively parsed instance the claim (and the
clear intent of assigning the call's result) requires.  The scalar branch,
by contrast, behaves exactly as claimed: an unresolvable scalar is stored
under the `_id`-suffixed key. -/
theorem parse_fk_dict_assigns_none :
    parse fkSchema noRel [] [("group", Raw.obj (RawDict.cons "id" (Raw.i 7) RawDict.nil))]
      = [("group", Value.vnull)] ∧
    parse fkSchema noRel [] [("group", Raw.i 7)] = [("group_id", Value.vint 7)] ∧
    parse fkSchema (fun r => r == Raw.i 7) [] [("group", Raw.i 7)]
      = [("group", Value.vrelated (Raw.i 7))] := by
  refine ⟨by decide, by decide, by decide⟩

/-- C6: for a DateTime field given a text value of exact length 19, 16 or
10, the value is parsed positionally into year/month/day[/hour/minute
[/second]], localized to Europe/Moscow, and required to have year other
than 1970; a failed positional parse or a 1970 year yields null, and the
coercion is total (no exception escapes). -/
theorem coerce_datetime_text (s : String)
    (hlen : s.length = 19 ∨ s.length = 16 ∨ s.length = 10) :
    (∀ dt, positionalParse s = some dt → dt.year ≠ 1970 →
      coerceDateTime (Raw.s s) = Value.vdtMoscow dt) ∧
    (positionalParse s = none → coerceDateTime (Raw.s s) = Value.vnull) ∧
    (∀ dt, positionalParse s = some dt → dt.year = 1970 →
      coerceDateTime (Raw.s s) = Value.vnull) := by
  have h10 : 10 ≤ s.length := by
    rcases hlen with h | h | h <;> omega
  have hc : coerceDateTime (Raw.s s) = textTimestampCoerce s := by
    simp only [coerceDateTime]
    rw [if_pos h10]
  refine ⟨?_, ?_, ?_⟩
  · intro dt hp hy
    rw [hc]
    simp only [textTimestampCoerce, hp]
    rw [if_neg hy]
  · intro hp
    rw [hc]
    simp only [textTimestampCoerce, hp]
  · intro dt hp hy
    rw [hc]
    simp only [textTimestampCoerce, hp]
    rw [if_pos hy]

/-- Witness for C6 at a concrete input: a 19-character timestamp parses
positionally and is localized to Europe/Moscow. -/
theorem coerce_datetime_text_witness :
    coerceDateTime (Raw.s "2020-01-02 03:04:05")
      = Value.vdtMoscow (PyDatetime.mk 2020 1 2 3 4 5) :=
  (coerce_datetime_text "2020-01-02 03:04:05" (Or.inl (by decide))).1
    (PyDatetime.mk 2020 1 2 3 4 5) (by decide) (by decide)

/-- C7, counterexample.  A numeric text of length 13 is not a text
timestamp of length 19/16/10, so by the claim it should be treated as a
positive epoch count and yield the corresponding UTC instant; the code
instead sends every string of length at least 10 into the text arm, where
it fails to null.  Likewise, a positive epoch beyond the representable
datetime range (year > 9999) yields null, not a UTC instant. -/
theorem coerce_datetime_epoch_counterexample :
    (coerceDateTime (Raw.s "1577836800123") = Value.vnull ∧
      Value.vnull ≠ Value.vdtUtcEpoch 1577836800123) ∧
    (coerceDateTime (Raw.i 300000000000) = Value.vnull ∧
      Value.vnull ≠ Value.vdtUtcEpoch 300000000000) := by
  refine ⟨⟨by decide, ?_⟩, ⟨by decide, ?_⟩⟩ <;> (intro h; exact Value.noConfusion h)

/-- C7, amended: for a DateTime field whose raw value is *not a string of
length at least 10*, the value is treated as a positive integer epoch
count: not convertible to an integer, zero, negative, or beyond the
maximum representable timestamp (year 9999) yields null, and a positive
in-range count yields the UTC instant equal to that epoch. -/
theorem coerce_datetime_epoch :
    (∀ v : Raw, (∀ t, v = Raw.s t → t.length < 10) →
      coerceDateTime v =
        match pyIntOfRaw v with
        | some n => if 0 < n ∧ n < maxTimestamp then Value.vdtUtcEpoch n else Value.vnull
        | none => Value.vnull) ∧
    (∀ n : Int, 0 < n → n < maxTimestamp → coerceDateTime (Raw.i n) = Value.vdtUtcEpoch n) ∧
    (∀ n : Int, n ≤ 0 → coerceDateTime (Raw.i n) = Value.vnull) := by
  have hepoch : ∀ v : Raw, (∀ t, v = Raw.s t → t.length < 10) →
      coerceDateTime v = epochCoerce v := by
    intro v hv
    cases v with
    | s t =>
      have := hv t rfl
      simp only [coerceDateTime]
      rw [if_neg (by omega)]
    | null => rfl
    | b x => rfl
    | i n => rfl
    | arr xs => rfl
    | obj kvs => rfl
  refine ⟨?_, ?_, ?_⟩
  · intro v hv
    rw [hepoch v hv]
    rfl
  · intro n h1 h2
    rw [hepoch (Raw.i n) (fun t ht => Raw.noConfusion ht)]
    simp only [epochCoerce, pyIntOfRaw]
    rw [if_pos ⟨h1, h2⟩]
  · intro n h
    rw [hepoch (Raw.i n) (fun t ht => Raw.noConfusion ht)]
    simp only [epochCoerce, pyIntOfRaw]
    rw [if_neg]
    intro hc
    omega

/-- Witness for the amended C7 at a concrete input: epoch 1577836800
(2020-01-01T00:00:00Z) coerces to the UTC instant of that epoch. -/
theorem coerce_datetime_epoch_witness :
    coerceDateTime (Raw.i 1577836800) = Value.vdtUtcEpoch 1577836800 :=
  coerce_datetime_epoch.2.1 1577836800 (by decide) (by decide)

end OdkApi
